import Mathlib

/-!
Verification of the periodic-task due-detection and reminder-escalation core of
the task-reminder agent.

The definitions below are a shallow embedding of the TypeScript source:

* `parseFrequencyToMilliseconds` / `parseFrequencyToDays` embed the two parsing
  functions of `src/utils.ts` (the JavaScript regular expression
  `^(\d+)\s*(second|seconds|...|months)$` applied case-insensitively after the
  anchored replacement of `^every\s+` and a `trim`, is modelled character by
  character on `List Char`).
* `isTaskDue` and `getDaysOverdue` embed the due evaluator of `src/utils.ts`;
  the source reads `Date.now()` inside the function body, so the embedding
  takes the ambient clock reading `dateNowMs` as an explicit extra input.
  A thrown `Invalid frequency format` error is modelled by `Option.none`.
* `runTaskReminderTrace` embeds `TaskReminderWorkflow.run` of
  `src/workflows/task-reminder-workflow.ts` as a trace of events (sends,
  sleeps, due-checks), with the two mid-sequence store responses supplied as
  oracle inputs; deliveries are modelled as succeeding.
* `batchRun` embeds `BatchTaskReminderWorkflow.run`, with the per-task launch
  outcomes of the first attempt and of the retry attempt supplied as oracles.

Timestamps and durations are integer milliseconds (`Int` / `Nat`); JavaScript
number arithmetic on these values is exact for all realistic magnitudes.
-/

namespace TaskReminder

/-! ## Character-level helpers for the frequency regular expression -/

/-- Whitespace test modelling the JavaScript `\s` class (and `trim`) on the
ASCII range: space, tab, line feed, vertical tab, form feed, carriage return. -/
def isWS (c : Char) : Bool :=
  decide (c.toNat = 32 ∨ c.toNat = 9 ∨ c.toNat = 10 ∨ c.toNat = 11 ∨
    c.toNat = 12 ∨ c.toNat = 13)

/-- Decimal digit test modelling the JavaScript `\d` class. -/
def isDigitC (c : Char) : Bool :=
  decide (48 ≤ c.toNat ∧ c.toNat ≤ 57)

/-- Case-insensitive match of a character against a lowercase ASCII letter
target, modelling the regular expression `i` flag: `c` matches `t` when it is
`t` itself or its uppercase form (code point 32 below). -/
def ciEqChar (c t : Char) : Bool :=
  c.toNat == t.toNat || c.toNat + 32 == t.toNat

/-- Case-insensitive match of a character list against a lowercase word. -/
def ciEqList : List Char → List Char → Bool
  | [], [] => true
  | c :: cs, t :: ts => ciEqChar c t && ciEqList cs ts
  | _, _ => false

/-- Does the list start with a whitespace character? -/
def startsWS : List Char → Bool
  | c :: _ => isWS c
  | [] => false

/-- Model of `frequency.replace(/^every\s+/i, "")`: an anchored,
case-insensitive `every` followed by at least one whitespace character is
removed together with that whitespace run; otherwise the string is unchanged. -/
def stripEvery (s : List Char) : List Char :=
  match s with
  | a :: b :: c :: d :: e :: rest =>
    if ciEqChar a 'e' && ciEqChar b 'v' && ciEqChar c 'e' && ciEqChar d 'r' &&
        ciEqChar e 'y' && startsWS rest then
      rest.dropWhile isWS
    else
      a :: b :: c :: d :: e :: rest
  | other => other

/-- Model of `String.prototype.trim`: drop whitespace from both ends. -/
def trimChars (s : List Char) : List Char :=
  ((s.dropWhile isWS).reverse.dropWhile isWS).reverse

/-- Value of a decimal digit list, modelling `parseInt(match[1], 10)` on the
digits captured by `(\d+)`. -/
def natOfDigits (ds : List Char) : Nat :=
  ds.foldl (fun a c => 10 * a + (c.toNat - 48)) 0

/-- The recognized unit spellings, in the order of the source regular
expression's alternatives, each with its millisecond multiplier (the `switch`
of `parseFrequencyToMilliseconds`: second(s) ↦ 1000, minute(s) ↦ 60000,
hour(s) ↦ 3600000, day(s) ↦ 86400000, week(s) ↦ 604800000 = 7×24h,
month(s) ↦ 2592000000 = 30×24h, approximate by design) and its day multiplier
(the `switch` of `parseFrequencyToDays`, fractional for sub-day units). -/
def unitTable : List (List Char × Nat × ℚ) :=
  [("second".data, (1000, 1 / 86400)), ("seconds".data, (1000, 1 / 86400)),
   ("minute".data, (60000, 1 / 1440)), ("minutes".data, (60000, 1 / 1440)),
   ("hour".data, (3600000, 1 / 24)), ("hours".data, (3600000, 1 / 24)),
   ("day".data, (86400000, 1)), ("days".data, (86400000, 1)),
   ("week".data, (604800000, 7)), ("weeks".data, (604800000, 7)),
   ("month".data, (2592000000, 30)), ("months".data, (2592000000, 30))]

/-- Millisecond multiplier of a recognized unit token, matched
case-insensitively against the alternatives of the source regular
expression. -/
def unitMs (u : List Char) : Option Nat :=
  (unitTable.find? fun e => ciEqList u e.1).map fun e => e.2.1

/-- Day multiplier of a recognized unit, as a rational, mirroring
`parseFrequencyToDays`. -/
def unitDays (u : List Char) : Option ℚ :=
  (unitTable.find? fun e => ciEqList u e.1).map fun e => e.2.2

/-- The normalization the source applies before matching: remove an optional
anchored `every` plus whitespace, then trim. -/
def normalizeFreq (s : String) : List Char :=
  trimChars (stripEvery s.data)

/-- Embedding of `parseFrequencyToMilliseconds` from `src/utils.ts`.
`none` models the thrown `Invalid frequency format` error. The anchored regular
expression with a greedy `(\d+)` and `\s*` is equivalent to maximal-munch
`takeWhile` / `dropWhile`, because no recognized unit begins with a digit or a
whitespace character. -/
def parseFrequencyToMilliseconds (frequency : String) : Option Nat :=
  let normalized := normalizeFreq frequency
  let ds := normalized.takeWhile isDigitC
  let rest := normalized.dropWhile isDigitC
  if ds.isEmpty then none
  else
    match unitMs (rest.dropWhile isWS) with
    | some m => some (natOfDigits ds * m)
    | none => none

/-- Embedding of `parseFrequencyToDays` from `src/utils.ts` (used by the
`addTask` tool for validation); the fractional-day value is modelled exactly in
`ℚ` where the source computes with binary floating point. -/
def parseFrequencyToDays (frequency : String) : Option ℚ :=
  let normalized := normalizeFreq frequency
  let ds := normalized.takeWhile isDigitC
  let rest := normalized.dropWhile isDigitC
  if ds.isEmpty then none
  else
    match unitDays (rest.dropWhile isWS) with
    | some m => some (natOfDigits ds * m)
    | none => none

/-! ## The due evaluator -/

/-- Embedding of the `Task` record of `src/utils.ts`; timestamps are integer
milliseconds since the epoch (the value of `Date.prototype.getTime`). -/
structure Task where
  id : String
  name : String
  frequency : String
  lastCompleted : Option Int
  createdAt : Int

/-- Reference timestamp: `task.lastCompleted || task.createdAt` (a `Date`
object is always truthy, so `||` is exactly the optional-field default). -/
def referenceTime (t : Task) : Int :=
  t.lastCompleted.getD t.createdAt

/-- Embedding of `isTaskDue` from `src/utils.ts`. The source body calls
`Date.now()`; `dateNowMs` is the value of that ambient clock read — the source
function itself takes only the task. `none` models the error thrown by the
frequency parser on a malformed frequency. -/
def isTaskDue (t : Task) (dateNowMs : Int) : Option Bool :=
  (parseFrequencyToMilliseconds t.frequency).map fun (freqMs : Nat) =>
    decide ((freqMs : Int) ≤ dateNowMs - referenceTime t)

/-- Embedding of `getDaysOverdue` from `src/utils.ts`:
`Math.floor((timeSinceReference - frequencyMs) / 86400000)`, i.e. floor
division of the signed millisecond excess by one day; like the source it does
not clamp negative values. `dateNowMs` is the ambient `Date.now()` reading. -/
def getDaysOverdue (t : Task) (dateNowMs : Int) : Option Int :=
  (parseFrequencyToMilliseconds t.frequency).map fun (freqMs : Nat) =>
    Int.fdiv (dateNowMs - referenceTime t - (freqMs : Int)) 86400000

/-! ## The escalation workflow (`TaskReminderWorkflow.run`) -/

/-- The three escalation levels of a reminder (`reminderLevel` in the source). -/
inductive ReminderLevel
  | initial
  | followup
  | escalation
deriving DecidableEq, Repr

/-- Embedding of `TaskReminderParams` (the `dueDate` field is never read by
`run` or by the message builder, so it is omitted); `daysOverdue` is optional
in the source and defaulted with `daysOverdue || 0`. -/
structure ReminderParams where
  taskId : String
  taskName : String
  frequency : String
  reminderLevel : ReminderLevel
  daysOverdue : Option Nat

/-- Message text built by `sendReminderMessage`: a level-dependent emoji
followed by the level's template, with `day`/`days` chosen by
`daysOverdue !== 1`. -/
def renderReminderText (level : ReminderLevel) (taskName frequency : String)
    (daysOverdue : Nat) : String :=
  let emoji : String :=
    if level = ReminderLevel.escalation then "🚨"
    else if level = ReminderLevel.followup then "⏰" else "🔔"
  if level = ReminderLevel.initial then
    emoji ++ " Reminder: \"" ++ taskName ++ "\" is due. Frequency: " ++ frequency ++ "."
  else if level = ReminderLevel.followup then
    emoji ++ " Follow-up: \"" ++ taskName ++ "\" is still due (" ++ toString daysOverdue ++
      " day" ++ (if daysOverdue ≠ 1 then "s" else "") ++ " overdue). Don\x27t forget!"
  else
    emoji ++ " URGENT: \"" ++ taskName ++ "\" is " ++ toString daysOverdue ++
      " day" ++ (if daysOverdue ≠ 1 then "s" else "") ++ " overdue! Please complete this task soon."

/-- A delivered reminder: escalation level, displayed overdue count, and the
rendered text handed to the notifier. -/
structure SentMessage where
  level : ReminderLevel
  daysOverdue : Nat
  text : String
deriving DecidableEq, Repr

/-- Response of the task store's `/internal/check-task` endpoint as seen by the
workflow: either an HTTP-ok JSON body carrying `isDue`, or a non-ok response. -/
inductive CheckResponse
  | ok (isDue : Bool)
  | err
deriving DecidableEq, Repr

/-- Embedding of `TaskReminderWorkflow.checkTaskStillDue`: a non-ok store
response yields `true` (assume still due) rather than an error; an ok response
yields its `isDue` field. -/
def checkTaskStillDue : CheckResponse → Bool
  | CheckResponse.err => true
  | CheckResponse.ok b => b

/-- One observable step of a workflow run: a delivered message, a durable
sleep (label and the numeric duration constant from the source), or a
due-check with its result. -/
inductive RunEvent
  | send (msg : SentMessage)
  | sleep (label : String) (duration : Nat)
  | check (stillDue : Bool)
deriving DecidableEq, Repr

/-- The message a run of `TaskReminderWorkflow` sends for a given level and
displayed overdue count. -/
def mkMsg (p : ReminderParams) (level : ReminderLevel) (d : Nat) : SentMessage :=
  ⟨level, d, renderReminderText level p.taskName p.frequency d⟩

/-- Embedding of `TaskReminderWorkflow.run` as its trace of events, with the
two mid-sequence store responses `chk1` and `chk2` supplied as oracles.
Deliveries are modelled as succeeding (the host retries failed steps).
Following the source: send the reminder at the dispatched level with overdue
count `daysOverdue || 0`; only when that level is `initial`, sleep
(`wait-for-followup`, constant 24·60·60), re-check, and if still due send the
follow-up at count d+1, sleep (`wait-for-escalation`, constant 48·60·60),
re-check, and if still due send the escalation at count d+3; otherwise stop. -/
def runTaskReminderTrace (p : ReminderParams) (chk1 chk2 : CheckResponse) :
    List RunEvent :=
  let d := p.daysOverdue.getD 0
  RunEvent.send (mkMsg p p.reminderLevel d) ::
    (if p.reminderLevel = ReminderLevel.initial then
      RunEvent.sleep "wait-for-followup" 86400 ::
        RunEvent.check (checkTaskStillDue chk1) ::
        (if checkTaskStillDue chk1 then
          RunEvent.send (mkMsg p ReminderLevel.followup (d + 1)) ::
            RunEvent.sleep "wait-for-escalation" 172800 ::
            RunEvent.check (checkTaskStillDue chk2) ::
            (if checkTaskStillDue chk2 then
              [RunEvent.send (mkMsg p ReminderLevel.escalation (d + 3))]
            else [])
        else [])
    else [])

/-- The messages delivered along a trace, in order. -/
def messagesOf (trace : List RunEvent) : List SentMessage :=
  trace.filterMap fun e =>
    match e with
    | RunEvent.send m => some m
    | _ => none

/-! ## The batch workflow (`BatchTaskReminderWorkflow.run`) -/

/-- Embedding of one element of `BatchReminderParams.dueTasks`. -/
structure DueTask where
  id : String
  name : String
  frequency : String
  daysOverdue : Nat
deriving DecidableEq, Repr

/-- Final value returned by `BatchTaskReminderWorkflow.run`: the early return
for an empty batch (success with `processed: 0` and no counts), or the report
`{success: true, processed, successful, failed}`. -/
inductive BatchResult
  | empty
  | report (processed successful failed : Nat)
deriving DecidableEq, Repr

/-- Observable outcome of one run of `BatchTaskReminderWorkflow`:
the first-attempt launch outcomes in batch order, the `retry-delay` sleep
duration when a retry pass happened (the source constant 300, commented as
5 minutes), the retry-pass launch outcomes, and the returned result. -/
structure BatchOutput where
  firstLaunches : List (String × Bool)
  retryDelay : Option Nat
  retryLaunches : List (String × Bool)
  result : BatchResult
deriving DecidableEq, Repr

/-- Embedding of `BatchTaskReminderWorkflow.run`. `launch1 t` and `launch2 t`
are oracles for whether `TASK_REMINDER_WORKFLOW.create` succeeds for task `t`
on the first attempt and on the retry attempt (`Promise.all` preserves order,
so per-task outcomes suffice). Following the source: an empty batch returns
early; otherwise all launches are attempted, `successful`/`failed` are counted
from those first-attempt results, and if any failed, after the `retry-delay`
sleep exactly the first-attempt failures (selected by index against the
results array) are launched once more — the retry results are not folded into
the returned counts. -/
def batchRun (dueTasks : List DueTask) (launch1 launch2 : DueTask → Bool) :
    BatchOutput :=
  if dueTasks.isEmpty then
    ⟨[], none, [], BatchResult.empty⟩
  else
    let results := dueTasks.map fun t => (t.id, launch1 t)
    let successful := (results.filter fun r => r.2).length
    let failed := (results.filter fun r => !r.2).length
    if 0 < failed then
      let failedTasks := dueTasks.filter fun t => !launch1 t
      let retries := failedTasks.map fun t => (t.id, launch2 t)
      ⟨results, some 300, retries,
        BatchResult.report dueTasks.length successful failed⟩
    else
      ⟨results, none, [], BatchResult.report dueTasks.length successful failed⟩

end TaskReminder

namespace TaskReminder

example : parseFrequencyToMilliseconds "7 days" = some 604800000 := by decide
example : parseFrequencyToMilliseconds "every 2 Weeks" = some 1209600000 := by decide
example : parseFrequencyToMilliseconds "not a frequency" = none := by decide
example : parseFrequencyToMilliseconds "0 days" = some 0 := by decide
example : parseFrequencyToMilliseconds "EVERY 1 MONTH" = some 2592000000 := by decide
example : parseFrequencyToMilliseconds "every" = none := by decide
example : parseFrequencyToMilliseconds " every 7 days" = none := by decide
example : parseFrequencyToMilliseconds "7days" = some 604800000 := by decide
example : parseFrequencyToDays "30 minutes" = some (30 * (1 / 1440)) := rfl

/-! ## Concrete instances used by witnesses and counterexamples -/

/-- A dispatched escalation run: due task "Laundry", frequency "7 days",
2 days overdue at dispatch time. -/
def exParams : ReminderParams :=
  ⟨"task-1", "Laundry", "7 days", ReminderLevel.initial, some 2⟩

/-- A two-task batch. -/
def cxBatchTasks : List DueTask :=
  [⟨"a", "Task A", "7 days", 1⟩, ⟨"b", "Task B", "7 days", 2⟩]

/-- First-attempt launch oracle: the launch for task "b" fails. -/
def cxLaunch1 : DueTask → Bool := fun t => t.id == "a"

/-- Retry-attempt launch oracle: every retried launch succeeds. -/
def cxLaunch2 : DueTask → Bool := fun _ => true

/-! ## C1 and C2: the escalation sequence -/

/-- C1: a run dispatched at level initial with overdue count d, whose two
mid-sequence due-checks both report the task still due, delivers exactly the
three messages Initial, FollowUp, Escalation in that order, with overdue
counts d, d+1 and d+3; no fourth message occurs. -/
theorem run_still_due_three_messages (p : ReminderParams)
    (chk1 chk2 : CheckResponse) (d : Nat)
    (hlvl : p.reminderLevel = ReminderLevel.initial)
    (hd : p.daysOverdue = some d)
    (h1 : checkTaskStillDue chk1 = true)
    (h2 : checkTaskStillDue chk2 = true) :
    messagesOf (runTaskReminderTrace p chk1 chk2) =
      [mkMsg p ReminderLevel.initial d,
       mkMsg p ReminderLevel.followup (d + 1),
       mkMsg p ReminderLevel.escalation (d + 3)] := by
  simp [runTaskReminderTrace, messagesOf, hlvl, hd, h1, h2]

/-- Witness for C1 at the concrete run `exParams` (d = 2) with both store
checks answering ok/still-due. -/
theorem run_still_due_three_messages_witness :
    messagesOf (runTaskReminderTrace exParams (CheckResponse.ok true) (CheckResponse.ok true)) =
      [mkMsg exParams ReminderLevel.initial 2,
       mkMsg exParams ReminderLevel.followup 3,
       mkMsg exParams ReminderLevel.escalation 5] :=
  run_still_due_three_messages exParams (CheckResponse.ok true) (CheckResponse.ok true) 2
    rfl rfl rfl rfl

/-- C2: a run dispatched at level initial delivers exactly one Initial message
before the first wait (the trace begins with that send followed by the
wait-for-followup sleep), and if the store reports the task not due at the
first check, the Initial message is the only message ever delivered. -/
theorem run_initial_once_and_abort (p : ReminderParams)
    (chk1 chk2 : CheckResponse)
    (hlvl : p.reminderLevel = ReminderLevel.initial) :
    (runTaskReminderTrace p chk1 chk2).take 2 =
      [RunEvent.send (mkMsg p ReminderLevel.initial (p.daysOverdue.getD 0)),
       RunEvent.sleep "wait-for-followup" 86400] ∧
    (chk1 = CheckResponse.ok false →
      messagesOf (runTaskReminderTrace p chk1 chk2) =
        [mkMsg p ReminderLevel.initial (p.daysOverdue.getD 0)]) := by
  constructor
  · simp [runTaskReminderTrace, hlvl]
  · intro h
    subst h
    simp [runTaskReminderTrace, messagesOf, hlvl, checkTaskStillDue]

/-- Witness for C2 at the concrete run `exParams` with the first check
answering ok/not-due. -/
theorem run_initial_once_and_abort_witness :
    messagesOf (runTaskReminderTrace exParams (CheckResponse.ok false) (CheckResponse.ok true)) =
      [mkMsg exParams ReminderLevel.initial 2] :=
  (run_initial_once_and_abort exParams (CheckResponse.ok false) (CheckResponse.ok true) rfl).2 rfl

/-! ## C10: store failure at a due-check -/

/-- C10: a non-ok store response at a due-check makes `checkTaskStillDue`
return true (no error is raised in the model: the function is total), a run
behaves exactly as if the store had answered still-due, and in particular a
run dispatched at level initial whose first check hits a store failure still
delivers the FollowUp message (and the Escalation one if the second check also
reports still due). -/
theorem checkTaskStillDue_err_is_due :
    checkTaskStillDue CheckResponse.err = true ∧
    (∀ (p : ReminderParams) (chk2 : CheckResponse),
      runTaskReminderTrace p CheckResponse.err chk2 =
        runTaskReminderTrace p (CheckResponse.ok true) chk2) ∧
    (∀ (p : ReminderParams) (chk2 : CheckResponse),
      p.reminderLevel = ReminderLevel.initial →
      messagesOf (runTaskReminderTrace p CheckResponse.err chk2) =
        mkMsg p ReminderLevel.initial (p.daysOverdue.getD 0) ::
        mkMsg p ReminderLevel.followup (p.daysOverdue.getD 0 + 1) ::
        (if checkTaskStillDue chk2 then
          [mkMsg p ReminderLevel.escalation (p.daysOverdue.getD 0 + 3)]
        else [])) := by
  refine ⟨rfl, fun p chk2 => rfl, fun p chk2 hlvl => ?_⟩
  cases chk2 with
  | err => simp [runTaskReminderTrace, messagesOf, hlvl, checkTaskStillDue]
  | ok b => cases b <;> simp [runTaskReminderTrace, messagesOf, hlvl, checkTaskStillDue]

/-- Witness for C10 at the concrete run `exParams`: the first check hits a
store failure, the second reports not-due, and the run still delivered the
FollowUp message. -/
theorem checkTaskStillDue_err_is_due_witness :
    messagesOf (runTaskReminderTrace exParams CheckResponse.err (CheckResponse.ok false)) =
      [mkMsg exParams ReminderLevel.initial 2, mkMsg exParams ReminderLevel.followup 3] := by
  have h := checkTaskStillDue_err_is_due.2.2 exParams (CheckResponse.ok false) rfl
  simpa using h

/-! ## C4: the batch coordinator -/

/-- Counterexample to C4 as stated: in the two-task batch `cxBatchTasks` the
launch for task "b" fails on the first attempt and its single retry succeeds,
yet the returned report still counts successful = 1, failed = 1 — the counts
as they stand after the retry would be successful = 2, failed = 0. -/
theorem batchRun_counts_ignore_retry_cx :
    (batchRun cxBatchTasks cxLaunch1 cxLaunch2).retryLaunches = [("b", true)] ∧
    (batchRun cxBatchTasks cxLaunch1 cxLaunch2).result = BatchResult.report 2 1 1 := by
  decide

/-- C4 (amended): for a non-empty batch in which some launches fail, exactly
the failed subset is retried, once, after the fixed retry-delay sleep
(source constant 300, commented as 5 minutes), and the returned report carries
the total together with the succeeded and failed counts of the first launch
pass — the retry outcomes are not folded into the reported counts; an empty
batch returns the early no-op success. -/
theorem batchRun_spec (tasks : List DueTask) (l1 l2 : DueTask → Bool) :
    (tasks = [] → batchRun tasks l1 l2 = ⟨[], none, [], BatchResult.empty⟩) ∧
    (tasks ≠ [] → (∃ t ∈ tasks, l1 t = false) →
      (batchRun tasks l1 l2).firstLaunches = (tasks.map fun t => (t.id, l1 t)) ∧
      (batchRun tasks l1 l2).retryDelay = some 300 ∧
      (batchRun tasks l1 l2).retryLaunches =
        ((tasks.filter fun t => !l1 t).map fun t => (t.id, l2 t)) ∧
      (batchRun tasks l1 l2).result =
        BatchResult.report tasks.length
          (tasks.filter fun t => l1 t).length
          (tasks.filter fun t => !l1 t).length) := by
  constructor
  · intro h
    subst h
    rfl
  · intro hne hfail
    obtain ⟨t, ht, hfl⟩ := hfail
    have hempty : tasks.isEmpty = false := by
      cases tasks with
      | nil => exact absurd rfl hne
      | cons a l => rfl
    have hpos : 0 < (tasks.filter fun t => !l1 t).length := by
      refine List.length_pos.2 ?_
      refine List.ne_nil_of_mem (List.mem_filter.2 ⟨ht, ?_⟩)
      simp [hfl]
    have hcomp1 : ((fun r : String × Bool => !r.2) ∘ fun t : DueTask => (t.id, l1 t)) =
        fun t => !l1 t := rfl
    have hcomp2 : ((fun r : String × Bool => r.2) ∘ fun t : DueTask => (t.id, l1 t)) =
        fun t => l1 t := rfl
    refine ⟨?_, ?_, ?_, ?_⟩ <;>
      simp [batchRun, hempty, hpos, List.filter_map, hcomp1, hcomp2]

/-- Witness for C4 (amended) at the concrete batch `cxBatchTasks` with the
launch for "b" failing first and succeeding on retry. -/
theorem batchRun_spec_witness :
    (batchRun cxBatchTasks cxLaunch1 cxLaunch2).retryDelay = some 300 ∧
    (batchRun cxBatchTasks cxLaunch1 cxLaunch2).result = BatchResult.report 2 1 1 :=
  have h := (batchRun_spec cxBatchTasks cxLaunch1 cxLaunch2).2 (by decide)
    ⟨⟨"b", "Task B", "7 days", 2⟩, by decide, by decide⟩
  ⟨h.2.1, h.2.2.2.trans (by decide)⟩

/-! ## C9: the rendered message texts -/

/-- Counterexample to C9 as stated: the Initial message the code produces
carries a leading bell emoji, so it differs from the bare spec template. -/
theorem renderReminderText_emoji_cx :
    renderReminderText ReminderLevel.initial "Laundry" "7 days" 0 ≠
      "Reminder: \"Laundry\" is due. Frequency: 7 days." := by
  decide

/-- C9 (amended): for every task name, frequency and overdue count, the
produced texts are exactly the spec templates prefixed by a level-dependent
emoji (bell, alarm clock, siren), with the template's "day(s)" rendered as
"day" for count 1 and "days" otherwise. -/
theorem renderReminderText_spec (name freq : String) (d : Nat) :
    renderReminderText ReminderLevel.initial name freq d =
      "🔔 Reminder: \"" ++ name ++ "\" is due. Frequency: " ++ freq ++ "." ∧
    renderReminderText ReminderLevel.followup name freq d =
      "⏰ Follow-up: \"" ++ name ++ "\" is still due (" ++ toString d ++
        (if d = 1 then " day" else " days") ++ " overdue). Don\x27t forget!" ∧
    renderReminderText ReminderLevel.escalation name freq d =
      "🚨 URGENT: \"" ++ name ++ "\" is " ++ toString d ++
        (if d = 1 then " day" else " days") ++ " overdue! Please complete this task soon." := by
  refine ⟨rfl, ?_, ?_⟩ <;> by_cases hd : d = 1 <;>
    simp only [renderReminderText, hd, if_pos, if_neg, ne_eq, not_true_eq_false,
      not_false_eq_true, if_true, if_false, reduceIte] <;>
    simp [String.append_assoc]

/-- Witness for C9 (amended) at a concrete name, frequency and count. -/
theorem renderReminderText_spec_witness :
    renderReminderText ReminderLevel.initial "Laundry" "7 days" 2 =
      "🔔 Reminder: \"Laundry\" is due. Frequency: 7 days." :=
  (renderReminderText_spec "Laundry" "7 days" 2).1

/-! ## C3: the due evaluator and the clock -/

/-- A task created at the epoch with frequency "7 days" and no completion. -/
def sevenDayTask : Task := ⟨"task-7", "Water plants", "7 days", none, 0⟩

/-- The same task record with a different id and name. -/
def sevenDayTaskRenamed : Task := ⟨"task-8", "Hydrate the plants", "7 days", none, 0⟩

/-- Counterexample to C3 as stated: the source functions take no now
parameter — their bodies read `Date.now()` — so with the ambient clock reading
modelled explicitly, the very same task evaluates differently at two clock
instants: the result is not a function of the source function's only explicit
argument, the task, refuting that the wall clock is never read. -/
theorem dueEvaluator_reads_clock_cx :
    isTaskDue sevenDayTask 604800000 = some true ∧
    isTaskDue sevenDayTask 604799000 = some false ∧
    getDaysOverdue sevenDayTask 777600000 = some 2 ∧
    getDaysOverdue sevenDayTask 604800000 = some 0 := by
  refine ⟨by decide, by decide, ?_, ?_⟩ <;> decide

/-- C3 (amended): `isTaskDue` and `getDaysOverdue` read the wall clock via
`Date.now()` inside their bodies; modelling that reading as an explicit input,
they are deterministic in the task's frequency, lastCompleted and createdAt
fields together with the clock reading — two evaluations with the same fields
and the same `Date.now()` value return the same result, whatever the id and
name. -/
theorem dueEvaluator_deterministic (t1 t2 : Task) (now : Int)
    (hf : t1.frequency = t2.frequency)
    (hl : t1.lastCompleted = t2.lastCompleted)
    (hc : t1.createdAt = t2.createdAt) :
    isTaskDue t1 now = isTaskDue t2 now ∧
    getDaysOverdue t1 now = getDaysOverdue t2 now := by
  constructor <;> simp [isTaskDue, getDaysOverdue, referenceTime, hf, hl, hc]

/-- Witness for C3 (amended): the two seven-day tasks differing only in id and
name evaluate identically at the same clock reading. -/
theorem dueEvaluator_deterministic_witness :
    isTaskDue sevenDayTask 604800000 = isTaskDue sevenDayTaskRenamed 604800000 ∧
    getDaysOverdue sevenDayTask 604800000 = getDaysOverdue sevenDayTaskRenamed 604800000 :=
  dueEvaluator_deterministic sevenDayTask sevenDayTaskRenamed 604800000 rfl rfl rfl

/-! ## C5: the due threshold -/

/-- C5: for every task whose frequency parses to a duration d, `isTaskDue` at
clock reading now returns true exactly when now − reference ≥ d, the reference
being the last completion when present and the creation time otherwise; in
particular the "7 days" task created exactly 7×24h ago is due and the one
created 7×24h minus one second ago is not. -/
theorem isTaskDue_iff_threshold :
    (∀ (t : Task) (now : Int) (d : Nat),
      parseFrequencyToMilliseconds t.frequency = some d →
      (isTaskDue t now = some true ↔ (d : Int) ≤ now - referenceTime t)) ∧
    isTaskDue sevenDayTask 604800000 = some true ∧
    isTaskDue sevenDayTask (604800000 - 1000) = some false := by
  refine ⟨?_, by decide, by decide⟩
  intro t now d h
  simp [isTaskDue, h]

/-- Witness for C5 at the "7 days" task, created exactly 7×24h before the
clock reading. -/
theorem isTaskDue_iff_threshold_witness :
    isTaskDue sevenDayTask 604800000 = some true :=
  (isTaskDue_iff_threshold.1 sevenDayTask 604800000 604800000 (by decide)).2 (by decide)

/-! ## C6: the overdue amount -/

/-- Floor division by the millisecond length of a day agrees with the integer
characterization of the floor. -/
theorem fdiv_day_eq_iff (a r : Int) :
    Int.fdiv a 86400000 = r ↔ 86400000 * r ≤ a ∧ a < 86400000 * (r + 1) := by
  rw [Int.fdiv_eq_ediv _ (by norm_num)]
  omega

/-- C6: for every task whose frequency parses to a duration d, `getDaysOverdue`
at clock reading now returns the floor in whole days of
(now − reference − d): the returned r is characterized by
86400000·r ≤ now − reference − d < 86400000·(r+1); a task exactly 2 days and
3 hours past its threshold yields 2; and without clamping, a task not yet due
yields a negative value. -/
theorem getDaysOverdue_floor :
    (∀ (t : Task) (now : Int) (d : Nat) (r : Int),
      parseFrequencyToMilliseconds t.frequency = some d →
      (getDaysOverdue t now = some r ↔
        86400000 * r ≤ now - referenceTime t - (d : Int) ∧
        now - referenceTime t - (d : Int) < 86400000 * (r + 1))) ∧
    getDaysOverdue sevenDayTask (604800000 + 2 * 86400000 + 3 * 3600000) = some 2 ∧
    (∀ (t : Task) (now : Int) (d : Nat) (r : Int),
      parseFrequencyToMilliseconds t.frequency = some d →
      now - referenceTime t < (d : Int) →
      getDaysOverdue t now = some r → r < 0) := by
  have hmain : ∀ (t : Task) (now : Int) (d : Nat) (r : Int),
      parseFrequencyToMilliseconds t.frequency = some d →
      (getDaysOverdue t now = some r ↔
        86400000 * r ≤ now - referenceTime t - (d : Int) ∧
        now - referenceTime t - (d : Int) < 86400000 * (r + 1)) := by
    intro t now d r h
    simp only [getDaysOverdue, h, Option.map_some', Option.some_inj]
    exact fdiv_day_eq_iff _ r
  refine ⟨hmain, by decide, ?_⟩
  intro t now d r h hlt hr
  have := (hmain t now d r h).1 hr
  omega

/-- Witness for C6 at the "7 days" task evaluated at the epoch: seven days
short of its threshold, hence −7 overdue days. -/
theorem getDaysOverdue_floor_witness :
    getDaysOverdue sevenDayTask 0 = some (-7) :=
  (getDaysOverdue_floor.1 sevenDayTask 0 604800000 (-7) (by decide)).2 (by decide)

/-! ## Character and list facts about the frequency matcher -/

theorem isWS_not_digit {c : Char} (h : isWS c = true) : isDigitC c = false := by
  simp only [isWS, decide_eq_true_eq] at h
  simp only [isDigitC, decide_eq_false_iff_not]
  omega

theorem ciEqList_head (u : List Char) (t : Char) (w : List Char)
    (h : ciEqList u (t :: w) = true)
    (ht1 : 97 ≤ t.toNat) (ht2 : t.toNat ≤ 122) :
    ∃ c rest, u = c :: rest ∧ isDigitC c = false ∧ isWS c = false := by
  cases u with
  | nil => simp [ciEqList] at h
  | cons c rest =>
    have hc : ciEqChar c t = true := by
      simp only [ciEqList, Bool.and_eq_true] at h
      exact h.1
    simp only [ciEqChar, Bool.or_eq_true, beq_iff_eq] at hc
    refine ⟨c, rest, rfl, ?_, ?_⟩
    · simp only [isDigitC, decide_eq_false_iff_not]
      omega
    · simp only [isWS, decide_eq_false_iff_not]
      omega

/-- Does the list start with a lowercase ASCII letter? -/
def headLowerAlpha : List Char → Bool
  | [] => false
  | c :: _ => decide (97 ≤ c.toNat ∧ c.toNat ≤ 122)

theorem unitTable_heads : ∀ e ∈ unitTable, headLowerAlpha e.1 = true := by
  decide

theorem unitMs_head (u : List Char) (h : (unitMs u).isSome = true) :
    ∃ c rest, u = c :: rest ∧ isDigitC c = false ∧ isWS c = false := by
  unfold unitMs at h
  cases hf : unitTable.find? fun e => ciEqList u e.1 with
  | none => rw [hf] at h; simp at h
  | some e =>
    have hp : ciEqList u e.1 = true := by
      have := List.find?_some hf
      simpa using this
    have hh : headLowerAlpha e.1 = true :=
      unitTable_heads e (List.mem_of_find?_eq_some hf)
    cases he : e.1 with
    | nil => rw [he] at hh; exact absurd hh (by decide)
    | cons t w =>
      rw [he] at hp hh
      simp only [headLowerAlpha, decide_eq_true_eq] at hh
      exact ciEqList_head u t w hp hh.1 hh.2

theorem takeWhile_append_pos (p : Char → Bool) (xs : List Char) :
    ∀ ys : List Char, (∀ c ∈ xs, p c = true) →
      List.takeWhile p (xs ++ ys) = xs ++ List.takeWhile p ys := by
  induction xs with
  | nil => intro ys h; rfl
  | cons a l ih =>
    intro ys h
    have ha : p a = true := h a (List.mem_cons_self a l)
    simp only [List.cons_append, List.takeWhile_cons_of_pos ha]
    rw [ih ys fun c hc => h c (List.mem_cons_of_mem a hc)]

theorem dropWhile_append_pos (p : Char → Bool) (xs : List Char) :
    ∀ ys : List Char, (∀ c ∈ xs, p c = true) →
      List.dropWhile p (xs ++ ys) = List.dropWhile p ys := by
  induction xs with
  | nil => intro ys h; rfl
  | cons a l ih =>
    intro ys h
    have ha : p a = true := h a (List.mem_cons_self a l)
    simp only [List.cons_append, List.dropWhile_cons_of_pos ha]
    exact ih ys fun c hc => h c (List.mem_cons_of_mem a hc)

/-! ## C7: when parsing fails -/

/-- Spec-side shape of a valid frequency expression: after the optional
leading "every" is removed and the string is trimmed, it decomposes as a
non-empty run of decimal digits, optional whitespace, and a recognized unit
token (the integer run is unconstrained — any non-negative value, including
zero, is accepted). -/
def WellFormedFreq (s : String) : Prop :=
  ∃ ds ws u : List Char,
    normalizeFreq s = ds ++ (ws ++ u) ∧
    ds ≠ [] ∧
    (∀ c ∈ ds, isDigitC c = true) ∧
    (∀ c ∈ ws, isWS c = true) ∧
    (unitMs u).isSome = true

theorem parse_of_wellFormed (s : String) (h : WellFormedFreq s) :
    ∃ v, parseFrequencyToMilliseconds s = some v := by
  obtain ⟨ds, ws, u, hn, hne, hds, hws, hu⟩ := h
  obtain ⟨c, rest, hu1, hcd, hcw⟩ := unitMs_head u hu
  obtain ⟨m, hm⟩ := Option.isSome_iff_exists.1 hu
  have hwsu_digit : List.takeWhile isDigitC (ws ++ u) = [] := by
    cases ws with
    | nil =>
      simp only [List.nil_append]
      rw [hu1]
      exact List.takeWhile_cons_of_neg (by simp [hcd])
    | cons w ws2 =>
      have : isDigitC w = false := isWS_not_digit (hws w (List.mem_cons_self w ws2))
      exact List.takeWhile_cons_of_neg (by simp [this])
  have htake : (normalizeFreq s).takeWhile isDigitC = ds := by
    rw [hn, takeWhile_append_pos isDigitC ds (ws ++ u) hds, hwsu_digit, List.append_nil]
  have hdrop : (normalizeFreq s).dropWhile isDigitC = ws ++ u := by
    rw [hn, dropWhile_append_pos isDigitC ds (ws ++ u) hds]
    cases ws with
    | nil =>
      simp only [List.nil_append]
      rw [hu1]
      exact List.dropWhile_cons_of_neg (by simp [hcd])
    | cons w ws2 =>
      have : isDigitC w = false := isWS_not_digit (hws w (List.mem_cons_self w ws2))
      exact List.dropWhile_cons_of_neg (by simp [this])
  have hdropWS : List.dropWhile isWS (ws ++ u) = u := by
    rw [dropWhile_append_pos isWS ws u hws, hu1]
    exact List.dropWhile_cons_of_neg (by simp [hcw])
  have hem : ds.isEmpty = false := by
    cases ds with
    | nil => exact absurd rfl hne
    | cons a l => rfl
  refine ⟨natOfDigits ds * m, ?_⟩
  simp only [parseFrequencyToMilliseconds, htake, hdrop, hdropWS, hm, hem,
    Bool.false_eq_true, if_false]

theorem wellFormed_of_parse (s : String) (v : Nat)
    (h : parseFrequencyToMilliseconds s = some v) : WellFormedFreq s := by
  by_cases he : ((normalizeFreq s).takeWhile isDigitC).isEmpty = true
  · exfalso
    simp only [parseFrequencyToMilliseconds, he, if_true] at h
    exact Option.noConfusion h
  · cases hu : unitMs (((normalizeFreq s).dropWhile isDigitC).dropWhile isWS) with
    | none =>
      exfalso
      simp only [parseFrequencyToMilliseconds, he, hu, if_false] at h
      exact Option.noConfusion h
    | some m =>
      refine ⟨(normalizeFreq s).takeWhile isDigitC,
        ((normalizeFreq s).dropWhile isDigitC).takeWhile isWS,
        ((normalizeFreq s).dropWhile isDigitC).dropWhile isWS, ?_, ?_, ?_, ?_, ?_⟩
      · rw [List.takeWhile_append_dropWhile, List.takeWhile_append_dropWhile]
      · intro hnil
        rw [hnil] at he
        exact he rfl
      · exact fun c hc => List.mem_takeWhile_imp hc
      · exact fun c hc => List.mem_takeWhile_imp hc
      · rw [hu]
        rfl

theorem unitDays_isSome_eq (u : List Char) :
    (unitDays u).isSome = (unitMs u).isSome := by
  unfold unitDays unitMs
  cases unitTable.find? fun e => ciEqList u e.1 <;> rfl

theorem parseDays_isNone_eq (s : String) :
    (parseFrequencyToDays s).isNone = (parseFrequencyToMilliseconds s).isNone := by
  by_cases he : ((normalizeFreq s).takeWhile isDigitC).isEmpty = true
  · simp [parseFrequencyToDays, parseFrequencyToMilliseconds, he]
  · have hds := unitDays_isSome_eq (((normalizeFreq s).dropWhile isDigitC).dropWhile isWS)
    cases hu : unitMs (((normalizeFreq s).dropWhile isDigitC).dropWhile isWS) with
    | none =>
      have hd : unitDays (((normalizeFreq s).dropWhile isDigitC).dropWhile isWS) = none := by
        rw [hu] at hds
        cases hx : unitDays (((normalizeFreq s).dropWhile isDigitC).dropWhile isWS) with
        | none => rfl
        | some q => rw [hx] at hds; exact absurd hds (by simp)
      simp [parseFrequencyToDays, parseFrequencyToMilliseconds, he, hu, hd]
    | some m =>
      obtain ⟨q, hq⟩ : ∃ q,
          unitDays (((normalizeFreq s).dropWhile isDigitC).dropWhile isWS) = some q := by
        rw [hu] at hds
        exact Option.isSome_iff_exists.1 hds
      simp [parseFrequencyToDays, parseFrequencyToMilliseconds, he, hu, hq]

/-- Counterexample to C7 as stated: the expression "0 days" has a non-positive
integer, which the claim says must fail, yet both parsing functions accept it
(the source pattern (\d+) admits 0 with no special-casing). -/
theorem parse_zero_accepted_cx :
    parseFrequencyToMilliseconds "0 days" = some 0 ∧
    parseFrequencyToDays "0 days" = some 0 := by
  refine ⟨by decide, ?_⟩
  have h : parseFrequencyToDays "0 days" = some ((natOfDigits ['0'] : ℚ) * 1) := rfl
  have h0 : natOfDigits ['0'] = 0 := by decide
  rw [h, h0]
  norm_num

/-- C7 (amended): parsing fails exactly when the expression, after an optional
leading "every" and trimming, is not a non-empty run of decimal digits
followed by optional whitespace and a recognized unit — the integer value is
unconstrained, so 0 is accepted; `parseFrequencyToDays` fails on exactly the
same inputs, and in particular "not a frequency" fails. -/
theorem parseFrequency_fails_iff :
    (∀ s : String, parseFrequencyToMilliseconds s = none ↔ ¬ WellFormedFreq s) ∧
    (∀ s : String, (parseFrequencyToDays s).isNone = (parseFrequencyToMilliseconds s).isNone) ∧
    parseFrequencyToMilliseconds "not a frequency" = none := by
  refine ⟨?_, parseDays_isNone_eq, by decide⟩
  intro s
  constructor
  · intro hn hw
    obtain ⟨v, hv⟩ := parse_of_wellFormed s hw
    rw [hn] at hv
    exact Option.noConfusion hv
  · intro hw
    cases hp : parseFrequencyToMilliseconds s with
    | none => rfl
    | some v => exact absurd (wellFormed_of_parse s v hp) hw

/-- Witness for C7 at the concrete malformed expression of the spec. -/
theorem parseFrequency_fails_iff_witness :
    parseFrequencyToMilliseconds "not a frequency" = none :=
  parseFrequency_fails_iff.2.2

/-! ## Decimal numerals, for quantifying over the integer of a frequency
expression -/

/-- The character of a decimal digit value (values 9 and above give '9'; the
function is only used below 10). -/
def digitChar (d : Nat) : Char :=
  if d = 0 then '0' else if d = 1 then '1' else if d = 2 then '2'
  else if d = 3 then '3' else if d = 4 then '4' else if d = 5 then '5'
  else if d = 6 then '6' else if d = 7 then '7' else if d = 8 then '8' else '9'

theorem digitChar_toNat (d : Nat) (h : d < 10) : (digitChar d).toNat = 48 + d := by
  interval_cases d <;> rfl

theorem digitChar_facts (d : Nat) (h : d < 10) :
    isDigitC (digitChar d) = true ∧ isWS (digitChar d) = false ∧
    ciEqChar (digitChar d) 'e' = false := by
  have ht := digitChar_toNat d h
  have he : ('e' : Char).toNat = 101 := rfl
  refine ⟨?_, ?_, ?_⟩
  · simp only [isDigitC, decide_eq_true_eq]
    omega
  · simp only [isWS, decide_eq_false_iff_not]
    omega
  · simp only [ciEqChar, Bool.or_eq_false_iff, beq_eq_false_iff_ne, ne_eq, ht, he]
    omega

/-- The decimal numeral of a natural number, least significant digit last
(what JavaScript interpolates for an integer). -/
def natNumeral (n : Nat) : List Char :=
  if h : n < 10 then [digitChar n]
  else natNumeral (n / 10) ++ [digitChar (n % 10)]
termination_by n
decreasing_by exact Nat.div_lt_self (by omega) (by omega)

theorem natOfDigits_append (xs : List Char) (c : Char) :
    natOfDigits (xs ++ [c]) = 10 * natOfDigits xs + (c.toNat - 48) := by
  simp [natOfDigits, List.foldl_append]

theorem natNumeral_spec (n : Nat) :
    natNumeral n ≠ [] ∧ (∀ c ∈ natNumeral n, ∃ d, d < 10 ∧ c = digitChar d) ∧
    natOfDigits (natNumeral n) = n := by
  induction n using Nat.strong_induction_on with
  | _ n ih =>
    rw [natNumeral.eq_def]
    by_cases h : n < 10
    · rw [dif_pos h]
      refine ⟨by simp, ?_, ?_⟩
      · intro c hc
        simp only [List.mem_singleton] at hc
        exact ⟨n, h, hc⟩
      · simp only [natOfDigits, List.foldl_cons, List.foldl_nil, digitChar_toNat n h]
        omega
    · rw [dif_neg h]
      have hlt : n / 10 < n := Nat.div_lt_self (by omega) (by omega)
      obtain ⟨ih1, ih2, ih3⟩ := ih (n / 10) hlt
      refine ⟨by simp, ?_, ?_⟩
      · intro c hc
        rcases List.mem_append.1 hc with h1 | h2
        · exact ih2 c h1
        · simp only [List.mem_singleton] at h2
          exact ⟨n % 10, Nat.mod_lt n (by omega), h2⟩
      · rw [natOfDigits_append, ih3, digitChar_toNat (n % 10) (Nat.mod_lt n (by omega))]
        omega

/-! ## Behaviour of normalization on numeral-headed expressions -/

theorem stripEvery_not_e (x : Char) (xs : List Char) (hx : ciEqChar x 'e' = false) :
    stripEvery (x :: xs) = x :: xs := by
  cases xs with
  | nil => rfl
  | cons b l2 =>
    cases l2 with
    | nil => rfl
    | cons c l3 =>
      cases l3 with
      | nil => rfl
      | cons d l4 =>
        cases l4 with
        | nil => rfl
        | cons e l5 =>
          simp only [stripEvery]
          rw [if_neg (by simp [hx])]

theorem stripEvery_every (x : Char) (xs : List Char) (hx : isWS x = false) :
    stripEvery ('e' :: 'v' :: 'e' :: 'r' :: 'y' :: ' ' :: x :: xs) = x :: xs := by
  simp only [stripEvery, startsWS]
  rw [if_pos (by decide :
    (ciEqChar 'e' 'e' && ciEqChar 'v' 'v' && ciEqChar 'e' 'e' && ciEqChar 'r' 'r' &&
      ciEqChar 'y' 'y' && isWS ' ') = true)]
  rw [List.dropWhile_cons_of_pos (by decide), List.dropWhile_cons_of_neg (by simp [hx])]

/-- Last-character test used to state that a unit token does not end in
whitespace. -/
def lastNotWS (u : List Char) : Bool :=
  (u.getLast?.map fun c => !isWS c).getD false

theorem trimChars_of_ends (x : Char) (xs : List Char) (cl : Char)
    (hx : isWS x = false) (hgl : (x :: xs).getLast? = some cl) (hcl : isWS cl = false) :
    trimChars (x :: xs) = x :: xs := by
  unfold trimChars
  rw [List.dropWhile_cons_of_neg (by simp [hx])]
  have hrev : (x :: xs).reverse.head? = some cl := by
    rw [List.head?_reverse]
    exact hgl
  cases hr : (x :: xs).reverse with
  | nil =>
    rw [hr] at hrev
    exact absurd hrev (by simp)
  | cons a l2 =>
    rw [hr] at hrev
    have ha : a = cl := by
      simpa using hrev
    rw [List.dropWhile_cons_of_neg (by simp [ha, hcl]), ← hr, List.reverse_reverse]

/-- Core lemma for C8: an expression consisting of the decimal numeral of n,
a space, and a recognized unit token parses to n times the unit's millisecond
multiplier. -/
theorem parseMs_numeral (n : Nat) (u : List Char) (m : Nat)
    (hm : unitMs u = some m) (hlast : lastNotWS u = true) :
    parseFrequencyToMilliseconds (String.mk (natNumeral n ++ ' ' :: u)) = some (n * m) := by
  obtain ⟨hne, hall, hval⟩ := natNumeral_spec n
  obtain ⟨c0, rest, hu1, hcd, hcw⟩ := unitMs_head u (by rw [hm]; rfl)
  obtain ⟨cl, hgl, hclw⟩ : ∃ cl, u.getLast? = some cl ∧ isWS cl = false := by
    unfold lastNotWS at hlast
    cases hg : u.getLast? with
    | none => rw [hg] at hlast; simp at hlast
    | some c =>
      rw [hg] at hlast
      simp only [Option.map_some', Option.getD_some, Bool.not_eq_true'] at hlast
      exact ⟨c, rfl, hlast⟩
  obtain ⟨x, xs, hnn⟩ : ∃ x xs, natNumeral n = x :: xs := by
    cases hq : natNumeral n with
    | nil => exact absurd hq hne
    | cons a l => exact ⟨a, l, rfl⟩
  obtain ⟨d, hd, hxd⟩ := hall x (by rw [hnn]; exact List.mem_cons_self x xs)
  have hxws : isWS x = false := by rw [hxd]; exact (digitChar_facts d hd).2.1
  have hxe : ciEqChar x 'e' = false := by rw [hxd]; exact (digitChar_facts d hd).2.2
  have halldig : ∀ c ∈ natNumeral n, isDigitC c = true := by
    intro c hc
    obtain ⟨d2, hd2, hcd2⟩ := hall c hc
    rw [hcd2]
    exact (digitChar_facts d2 hd2).1
  have hlcons : natNumeral n ++ ' ' :: u = x :: (xs ++ ' ' :: u) := by rw [hnn]; rfl
  have hstrip : stripEvery (natNumeral n ++ ' ' :: u) = natNumeral n ++ ' ' :: u := by
    rw [hlcons]
    exact stripEvery_not_e x _ hxe
  have hglast : (natNumeral n ++ ' ' :: u).getLast? = some cl := by
    rw [show natNumeral n ++ ' ' :: u = (natNumeral n ++ [' ']) ++ u by
      rw [List.append_assoc]; rfl]
    rw [List.getLast?_append, hgl]
    rfl
  have htrim : trimChars (natNumeral n ++ ' ' :: u) = natNumeral n ++ ' ' :: u := by
    rw [hlcons] at hglast ⊢
    exact trimChars_of_ends x _ cl hxws hglast hclw
  have hnorm : normalizeFreq (String.mk (natNumeral n ++ ' ' :: u)) = natNumeral n ++ ' ' :: u := by
    unfold normalizeFreq
    show trimChars (stripEvery (natNumeral n ++ ' ' :: u)) = _
    rw [hstrip, htrim]
  have htake : (natNumeral n ++ ' ' :: u).takeWhile isDigitC = natNumeral n := by
    rw [takeWhile_append_pos isDigitC _ _ halldig, List.takeWhile_cons_of_neg (by decide),
      List.append_nil]
  have hdrop : (natNumeral n ++ ' ' :: u).dropWhile isDigitC = ' ' :: u := by
    rw [dropWhile_append_pos isDigitC _ _ halldig]
    exact List.dropWhile_cons_of_neg (by decide)
  have hdws : List.dropWhile isWS (' ' :: u) = u := by
    rw [List.dropWhile_cons_of_pos (by decide), hu1]
    exact List.dropWhile_cons_of_neg (by simp [hcw])
  have hem : (natNumeral n).isEmpty = false := by
    rw [hnn]
    rfl
  simp only [parseFrequencyToMilliseconds, hnorm, htake, hdrop, hdws, hm, hem,
    Bool.false_eq_true, if_false, hval]

/-- Normalization removes a leading "every " in front of a numeral-headed
expression and nothing else, so parsing is unchanged. -/
theorem parse_every_numeral (n : Nat) (w : List Char) :
    parseFrequencyToMilliseconds (String.mk ("every ".data ++ (natNumeral n ++ w))) =
      parseFrequencyToMilliseconds (String.mk (natNumeral n ++ w)) := by
  obtain ⟨hne, hall, _⟩ := natNumeral_spec n
  obtain ⟨x, xs, hnn⟩ : ∃ x xs, natNumeral n = x :: xs := by
    cases hq : natNumeral n with
    | nil => exact absurd hq hne
    | cons a l => exact ⟨a, l, rfl⟩
  obtain ⟨d, hd, hxd⟩ := hall x (by rw [hnn]; exact List.mem_cons_self x xs)
  have hxws : isWS x = false := by rw [hxd]; exact (digitChar_facts d hd).2.1
  have hxe : ciEqChar x 'e' = false := by rw [hxd]; exact (digitChar_facts d hd).2.2
  have hcons : natNumeral n ++ w = x :: (xs ++ w) := by rw [hnn]; rfl
  have h1 : stripEvery ("every ".data ++ (natNumeral n ++ w)) = natNumeral n ++ w := by
    show stripEvery ('e' :: 'v' :: 'e' :: 'r' :: 'y' :: ' ' :: (natNumeral n ++ w)) = _
    rw [hcons]
    exact stripEvery_every x _ hxws
  have h2 : stripEvery (natNumeral n ++ w) = natNumeral n ++ w := by
    rw [hcons]
    exact stripEvery_not_e x _ hxe
  have hn : normalizeFreq (String.mk ("every ".data ++ (natNumeral n ++ w))) =
      normalizeFreq (String.mk (natNumeral n ++ w)) := by
    unfold normalizeFreq
    show trimChars (stripEvery ("every ".data ++ (natNumeral n ++ w))) =
      trimChars (stripEvery (natNumeral n ++ w))
    rw [h1, h2]
  simp only [parseFrequencyToMilliseconds, hn]

/-! ## C8: uniformity across spellings -/

/-- The six recognized units: singular spelling, plural spelling, and the
millisecond multiplier — a week is exactly 7×24h and a month exactly 30×24h. -/
def freqUnits : List (String × String × Nat) :=
  [("second", "seconds", 1000), ("minute", "minutes", 60 * 1000),
   ("hour", "hours", 60 * 60 * 1000), ("day", "days", 24 * 60 * 60 * 1000),
   ("week", "weeks", 7 * 24 * 60 * 60 * 1000),
   ("month", "months", 30 * 24 * 60 * 60 * 1000)]

/-- C8: for every positive integer n and every recognized unit, the expression
made of the decimal numeral of n and the singular spelling parses to n times
the unit's multiplier, likewise the plural spelling, and prefixing either
expression with "every " leaves the parse result unchanged; the week
multiplier is exactly 7×24h and the month multiplier exactly 30×24h (values
recorded in `freqUnits`). -/
theorem parse_units_uniform (n : Nat) (hn : 0 < n) (sg pl : String) (m : Nat)
    (hmem : (sg, pl, m) ∈ freqUnits) :
    parseFrequencyToMilliseconds (String.mk (natNumeral n ++ ' ' :: sg.data)) = some (n * m) ∧
    parseFrequencyToMilliseconds (String.mk (natNumeral n ++ ' ' :: pl.data)) = some (n * m) ∧
    parseFrequencyToMilliseconds
        (String.mk ("every ".data ++ (natNumeral n ++ ' ' :: sg.data))) =
      parseFrequencyToMilliseconds (String.mk (natNumeral n ++ ' ' :: sg.data)) ∧
    parseFrequencyToMilliseconds
        (String.mk ("every ".data ++ (natNumeral n ++ ' ' :: pl.data))) =
      parseFrequencyToMilliseconds (String.mk (natNumeral n ++ ' ' :: pl.data)) := by
  fin_cases hmem <;>
    exact ⟨parseMs_numeral n _ _ (by decide) (by decide),
      parseMs_numeral n _ _ (by decide) (by decide),
      parse_every_numeral n _, parse_every_numeral n _⟩

/-- Witness for C8 at n = 1 with the week and month units: "1 week" is exactly
7×24h of milliseconds and "1 month" exactly 30×24h. -/
theorem parse_units_uniform_witness :
    parseFrequencyToMilliseconds (String.mk (natNumeral 1 ++ ' ' :: "week".data)) =
      some (1 * (7 * 24 * 60 * 60 * 1000)) ∧
    parseFrequencyToMilliseconds (String.mk (natNumeral 1 ++ ' ' :: "month".data)) =
      some (1 * (30 * 24 * 60 * 60 * 1000)) :=
  ⟨(parse_units_uniform 1 (by decide) "week" "weeks" _ (by decide)).1,
   (parse_units_uniform 1 (by decide) "month" "months" _ (by decide)).1⟩

end TaskReminder
